import Mathlib

/-!
Verification of the streaming JSON engine (ijson-rust).

The repository source provides `errors.rs` (the fail-stop `ResultIterator`
wrapper and the public `Error` enum with its trait implementations) and
`test.rs` (integration tests pinning the parser's and path-filter's
outputs).  The lexer, parser and path-filter bodies are not part of the
provided source, so they are modelled from the specification where a claim
needs them; every such definition is marked `Modelled from the spec:` in
its doc comment.

Machine integers do not occur in the modelled fragment; JSON numbers are
modelled exactly as rationals (every numeric literal of the documents under
test is exactly representable).
-/

/-! ## Fail-stop wrapper, from `src/errors.rs` lines 14-41

A Rust `Iterator` is modelled as a step function on an explicit state:
`step s` returns the produced item (`none` = exhausted for this call) and
the successor state.  Nothing forces `none` to be permanent, matching Rust,
where an iterator may resume after returning `None`. -/

structure Iter (σ α : Type) where
  step : σ → Option α × σ

/-- State of `ResultIterator` (`errors.rs:14-17`): the wrapped iterator's
state and the `errored` flag. -/
structure RIState (σ : Type) where
  iterator : σ
  errored : Bool
  deriving DecidableEq

/-- `ResultIterator::new` (`errors.rs:20-25`). -/
def RIState.new {σ : Type} (s : σ) : RIState σ :=
  { iterator := s, errored := false }

/-- `ResultIterator::next` (`errors.rs:31-40`): if `errored` is set return
`None` at once; otherwise pull one item from the wrapped iterator and set
`errored` when that item is an `Err`. -/
def RIState.next {σ ε τ : Type} (it : Iter σ (Except ε τ)) (st : RIState σ) :
    Option (Except ε τ) × RIState σ :=
  if st.errored then
    (none, st)
  else
    let value := it.step st.iterator
    let errored2 : Bool :=
      match value.1 with
      | some (Except.error _) => true
      | _ => st.errored
    (value.1, { iterator := value.2, errored := errored2 })

/-- Iterate `RIState.next` a given number of times, collecting the
produced items in order together with the final state. -/
def RIState.nextN {σ ε τ : Type} (it : Iter σ (Except ε τ)) :
    Nat → RIState σ → List (Option (Except ε τ)) × RIState σ
  | 0, st => ([], st)
  | n + 1, st =>
    let p := RIState.next it st
    let q := RIState.nextN it n p.2
    (p.1 :: q.1, q.2)

/-! ## The `Error` enum, from `src/errors.rs` lines 43-104

`std::io::Error` and `std::str::Utf8Error` are external standard-library
types; they are modelled as opaque carriers of the data the code observes
from them (their `Display` text). -/

/-- Model of `std::io::Error`: an opaque payload, observable only through
its display text. -/
structure IOErr where
  message : String
  deriving DecidableEq

/-- Model of `std::str::Utf8Error`: an opaque payload, observable only
through its display text. -/
structure Utf8Err where
  message : String
  deriving DecidableEq

/-- The public error enum (`errors.rs:43-53`), with exactly its eight
variants and their payloads. -/
inductive Error where
  | Unterminated : Error
  | IOError : IOErr → Error
  | Unexpected : String → Error
  | Utf8 : Utf8Err → Error
  | Escape : String → Error
  | MoreLexemes : Error
  | Unmatched : Char → Error
  | AdditionalData : Error
  deriving DecidableEq

/-- `impl From<io::Error> for Error` (`errors.rs:94-98`). -/
def Error.fromIOError (e : IOErr) : Error := Error.IOError e

/-- `impl From<str::Utf8Error> for Error` (`errors.rs:100-104`). -/
def Error.fromUtf8 (e : Utf8Err) : Error := Error.Utf8 e

/-- `impl fmt::Display for Error` (`errors.rs:55-68`), with the recursion
depth made explicit as fuel.  The `Unterminated` and `IO` arms format
`self` again (`write! (f, "\x7b\x7d", self)` resp.
`write! (f, "I/O Error: \x7b\x7d", self)`), i.e. they re-enter the same
`fmt`; each re-entry consumes one unit of fuel, and `none` at every fuel
means the recursion never returns a string.  The remaining six arms
terminate immediately with their literal message. -/
def Error.fmtDisplay : Error → Nat → Option String
  | _, 0 => none
  | Error.Unterminated, n + 1 => Error.fmtDisplay Error.Unterminated n
  | Error.IOError e, n + 1 =>
    (Error.fmtDisplay (Error.IOError e) n).map (fun s => "I/O Error: " ++ s)
  | Error.Unexpected s, _ + 1 => some ("Unexpected lexeme: \x27" ++ s ++ "\x27")
  | Error.Utf8 e, _ + 1 => some ("UTF8 Error: " ++ e.message)
  | Error.Escape s, _ + 1 => some ("Malformed escape: \x27" ++ s ++ "\x27")
  | Error.MoreLexemes, _ + 1 => some "More lexemes expected"
  | Error.Unmatched c, _ + 1 =>
    some ("Unmatched container terminator: " ++ String.mk [c])
  | Error.AdditionalData, _ + 1 =>
    some "Additional data in the source stream after parsed value"

/-! ## Events, documents and the path filter

The parser and path-filter implementations are not part of the provided
source; this layer is modelled from the specification (sections 3, 4.4 and
6), and its outputs are pinned by the repository's own tests in
`src/test.rs`. -/

/-- The structural event type (spec section 3; used throughout
`src/test.rs`).  Numbers are modelled exactly as rationals. -/
inductive Event where
  | StartMap | EndMap | StartArray | EndArray
  | Key : String → Event
  | Null : Event
  | Boolean : Bool → Event
  | Number : ℚ → Event
  | String : String → Event
  deriving DecidableEq

/-- A well-formed JSON document (value tree); spec section 3 defines the
event sequence as "a valid pre-order encoding of one JSON value", so a
document is exactly one such value. -/
inductive Json where
  | null : Json
  | boolean : Bool → Json
  | number : ℚ → Json
  | string : String → Json
  | array : List Json → Json
  | object : List (String × Json) → Json

mutual
/-- Modelled from the spec: the unfiltered event sequence of a document
(spec section 3, "identical in shape to a depth-first pre/post-order walk
of the JSON value tree", section 4.3): container brackets around the
members, `Key` immediately before each map entry's value, scalars as a
single event. -/
def Json.events : Json → List Event
  | Json.null => [Event.Null]
  | Json.boolean b => [Event.Boolean b]
  | Json.number q => [Event.Number q]
  | Json.string s => [Event.String s]
  | Json.array elems => Event.StartArray :: Json.eventsList elems ++ [Event.EndArray]
  | Json.object entries => Event.StartMap :: Json.eventsEntries entries ++ [Event.EndMap]

/-- Event spans of a list of sibling values, concatenated in order. -/
def Json.eventsList : List Json → List Event
  | [] => []
  | j :: rest => Json.events j ++ Json.eventsList rest

/-- Event spans of a map's entries, in order: each entry is its `Key`
event followed by its value's span. -/
def Json.eventsEntries : List (String × Json) → List Event
  | [] => []
  | (k, v) :: rest => Event.Key k :: Json.events v ++ Json.eventsEntries rest
end

/-- A compiled pattern token (spec section 3): `Literal key` matches a map
entry whose key equals `key`; `Item` matches every element of an array and
never matches map entries. -/
inductive PatternToken where
  | Literal : String → PatternToken
  | Item : PatternToken
  deriving DecidableEq

/-- Split a character list at every dot (the segments of a dot-separated
path string). -/
def splitDots (cs : List Char) (acc : List Char) : List String :=
  match cs with
  | [] => [String.mk acc.reverse]
  | c :: rest =>
    if c = '.' then String.mk acc.reverse :: splitDots rest []
    else splitDots rest (c :: acc)

/-- Modelled from the spec: pattern compilation (spec sections 3, 4.4).
The empty string compiles to the empty pattern; otherwise each
dot-separated segment becomes a token, the segment spelled exactly like
the wildcard keyword `item` becoming `Item` (so a literal key of that
spelling is shadowed, spec sections 4.4 and 9) and every other segment
`Literal`. -/
def compile (s : String) : List PatternToken :=
  if s = "" then []
  else (splitDots s.toList []).map
    (fun seg => if seg = "item" then PatternToken.Item else PatternToken.Literal seg)

mutual
/-- Modelled from the spec: the sub-trees of a document matched by a
pattern, in document order (spec sections 3 and 4.4).  The empty pattern
matches the whole value; `Literal k` descends into the entries of a map
whose key equals `k`; `Item` descends into every element of an array;
`Item` against a map, `Literal` against an array, and any token against a
scalar match nothing. -/
def Json.matchesAt : List PatternToken → Json → List Json
  | [], j => [j]
  | PatternToken.Literal k :: rest, Json.object entries =>
    Json.matchesEntries k rest entries
  | PatternToken.Item :: rest, Json.array elems =>
    Json.matchesList rest elems
  | _ :: _, _ => []

/-- Matches of the remaining pattern inside each element of an array, in
order. -/
def Json.matchesList : List PatternToken → List Json → List Json
  | _, [] => []
  | rest, j :: js => Json.matchesAt rest j ++ Json.matchesList rest js

/-- Matches of the remaining pattern inside each entry of a map whose key
equals `k`, in order. -/
def Json.matchesEntries : String → List PatternToken → List (String × Json) → List Json
  | _, _, [] => []
  | k, rest, (k', v) :: es =>
    (if k' = k then Json.matchesAt rest v else []) ++ Json.matchesEntries k rest es
end

/-- Modelled from the spec: `prefix` mode output (spec section 4.4), "the
flat concatenation, in document order, of every matched sub-tree's full
event span (no separators)". -/
def prefixOut (pat : List PatternToken) (j : Json) : List Event :=
  Json.eventsList (Json.matchesAt pat j)

/-- Modelled from the spec: `items` mode output (spec section 4.4), "one
produced result per matched sub-tree, each result being the complete
self-contained event span for exactly one JSON value". -/
def itemsOut (pat : List PatternToken) (j : Json) : List (List Event) :=
  (Json.matchesAt pat j).map Json.events

/-- The document of the end-to-end scenario (spec section 8) and of the
`prefixes` test in `src/test.rs`:
`\x7b"docs":[\x7b"meta":[[1],\x7b\x7d]\x7d,\x7b"meta":\x7b"k":"v"\x7d\x7d,\x7b"meta":null\x7d]\x7d`. -/
def scenarioDoc : Json :=
  Json.object [("docs", Json.array [
    Json.object [("meta", Json.array [Json.array [Json.number 1], Json.object []])],
    Json.object [("meta", Json.object [("k", Json.string "v")])],
    Json.object [("meta", Json.null)]])]

/-! ## Lexer, modelled from the spec (section 4.1)

The byte source is modelled as an already-UTF-8-decoded character list;
the spec's `Utf8` failure mode (raw bytes failing validation at a string
boundary) is therefore not reachable inside the model and is not needed by
any claim about concrete input.  The lexer is written with explicit fuel
(one unit per produced lexeme); since every lexeme consumes at least one
character, fuel `length + 1` never runs out. -/

/-- The opening-brace character. -/
def lbraceChar : Char := Char.ofNat 123

/-- The closing-brace character. -/
def rbraceChar : Char := Char.ofNat 125

/-- An already-validated atomic token (spec section 3): one of the six
punctuation marks, the literals `true`, `false` and `null`, a fully
escape-decoded string, or a numeric literal reduced to its value. -/
inductive Lexeme where
  | lbrace | rbrace | lbracket | rbracket | colon | comma
  | tru | fls | nul
  | str : String → Lexeme
  | num : ℚ → Lexeme
  deriving DecidableEq

/-- JSON inter-lexeme whitespace: space, tab, line feed, carriage
return. -/
def isWs (c : Char) : Bool :=
  c = ' ' || c = Char.ofNat 9 || c = Char.ofNat 10 || c = Char.ofNat 13

/-- Skip whitespace between lexemes (spec: "whitespace between lexemes is
skipped silently"). -/
def skipWs : List Char → List Char
  | [] => []
  | c :: rest => if isWs c then skipWs rest else c :: rest

/-- Value of one hexadecimal digit, if it is one. -/
def hexVal (c : Char) : Option Nat :=
  if '0' ≤ c ∧ c ≤ '9' then some (c.toNat - 48)
  else if 'a' ≤ c ∧ c ≤ 'f' then some (c.toNat - 87)
  else if 'A' ≤ c ∧ c ≤ 'F' then some (c.toNat - 55)
  else none

/-- Modelled from the spec: string-literal scanning (spec section 4.1).
`acc` holds the decoded content so far, reversed.  Content runs between
unescaped double quotes; the recognized escapes are
`\" \\ \/ \b \f \n \r \t \uXXXX`; any other escape fails with
`Escape(text)`; reaching end-of-stream before the closing quote (also
inside an escape) fails with `Unterminated`. -/
def lexString : List Char → List Char → Except Error (String × List Char)
  | _, [] => Except.error Error.Unterminated
  | acc, c :: rest =>
    if c = '"' then Except.ok (String.mk acc.reverse, rest)
    else if c = '\\' then
      match rest with
      | [] => Except.error Error.Unterminated
      | e :: rest2 =>
        if e = '"' then lexString ('"' :: acc) rest2
        else if e = '\\' then lexString ('\\' :: acc) rest2
        else if e = '/' then lexString ('/' :: acc) rest2
        else if e = 'b' then lexString (Char.ofNat 8 :: acc) rest2
        else if e = 'f' then lexString (Char.ofNat 12 :: acc) rest2
        else if e = 'n' then lexString (Char.ofNat 10 :: acc) rest2
        else if e = 'r' then lexString (Char.ofNat 13 :: acc) rest2
        else if e = 't' then lexString (Char.ofNat 9 :: acc) rest2
        else if e = 'u' then
          match rest2 with
          | h1 :: h2 :: h3 :: h4 :: rest3 =>
            match hexVal h1, hexVal h2, hexVal h3, hexVal h4 with
            | some a, some b, some c2, some d =>
              lexString (Char.ofNat (((a * 16 + b) * 16 + c2) * 16 + d) :: acc) rest3
            | _, _, _, _ =>
              Except.error (Error.Escape (String.mk ['\\', 'u', h1, h2, h3, h4]))
          | _ => Except.error Error.Unterminated
        else Except.error (Error.Escape (String.mk ['\\', e]))
    else lexString (c :: acc) rest

/-- Is `c` a decimal digit? -/
def isDigit (c : Char) : Bool := '0' ≤ c && c ≤ '9'

/-- Split off the longest leading run of decimal digits. -/
def takeDigits : List Char → List Char × List Char
  | [] => ([], [])
  | c :: rest =>
    if isDigit c then
      let p := takeDigits rest
      (c :: p.1, p.2)
    else ([], c :: rest)

/-- Numeric value of a digit run. -/
def digitsToNat (ds : List Char) : Nat :=
  ds.foldl (fun n c => n * 10 + (c.toNat - 48)) 0

/-- Optional fractional part after the integer part: a dot must be
followed by at least one digit, otherwise the numeric syntax is malformed
(`Unexpected`). -/
def lexFrac : List Char → Except Error (List Char × List Char)
  | [] => Except.ok ([], [])
  | c :: rest =>
    if c = '.' then
      let p := takeDigits rest
      if p.1.isEmpty then Except.error (Error.Unexpected (String.mk ['.']))
      else Except.ok (p.1, p.2)
    else Except.ok ([], c :: rest)

/-- Optional exponent part: `e`/`E`, an optional sign, then at least one
digit, otherwise malformed (`Unexpected`).  Returns (negative?, digits,
rest). -/
def lexExp : List Char → Except Error (Bool × List Char × List Char)
  | [] => Except.ok (false, [], [])
  | c :: rest =>
    if c = 'e' ∨ c = 'E' then
      let p2 :=
        match rest with
        | s :: r2 =>
          if s = '-' then (true, r2)
          else if s = '+' then (false, r2)
          else (false, rest)
        | [] => (false, ([] : List Char))
      let p := takeDigits p2.2
      if p.1.isEmpty then Except.error (Error.Unexpected (String.mk [c]))
      else Except.ok (p2.1, p.1, p.2)
    else Except.ok (false, [], c :: rest)

/-- Modelled from the spec: numeric literals (spec section 4.1): optional
leading minus, integer part, optional fractional part, optional exponent,
parsed directly into a numeric value (modelled exactly as a rational:
all the digits read as one integer, scaled by ten to the exponent minus
the fractional length); malformed numeric syntax is reported as
`Unexpected`. -/
def lexNumber (cs : List Char) : Except Error (ℚ × List Char) :=
  let neg : Bool := match cs with | c :: _ => c = '-' | [] => false
  let cs1 := if neg then cs.tail else cs
  let ip := takeDigits cs1
  if ip.1.isEmpty then
    Except.error (Error.Unexpected (String.mk (cs.take 1)))
  else
    match lexFrac ip.2 with
    | Except.error e => Except.error e
    | Except.ok (fd, rest1) =>
      match lexExp rest1 with
      | Except.error e => Except.error e
      | Except.ok (esign, ed, rest2) =>
        let m : ℤ := digitsToNat ip.1 * 10 ^ fd.length + digitsToNat fd
        let m2 : ℤ := if neg then -m else m
        let e : ℤ :=
          (if esign then -(digitsToNat ed : ℤ) else (digitsToNat ed : ℤ)) - fd.length
        let v : ℚ :=
          if 0 ≤ e then ((m2 * 10 ^ e.toNat : ℤ) : ℚ)
          else (m2 : ℚ) / ((10 ^ (-e).toNat : ℤ) : ℚ)
        Except.ok (v, rest2)

/-- Is `c` a lowercase letter (the literals `true`/`false`/`null` are the
only words the grammar knows)? -/
def isLower (c : Char) : Bool := 'a' ≤ c && c ≤ 'z'

/-- Split off the longest leading run of lowercase letters. -/
def takeWord : List Char → List Char × List Char
  | [] => ([], [])
  | c :: rest =>
    if isLower c then
      let p := takeWord rest
      (c :: p.1, p.2)
    else ([], c :: rest)

/-- Modelled from the spec: the lexer loop (spec section 4.1).  One unit
of fuel is spent per lexeme.  Punctuation is recognized directly; `"`
starts a string literal; a digit or minus starts a number; a lowercase
word must be one of the literals `true`/`false`/`null`, any other word or
character failing with `Unexpected`.  On the first error the produced
sequence ends with that error (fail-stop). -/
def lexLoop : Nat → List Char → List (Except Error Lexeme)
  | 0, _ => []
  | fuel + 1, cs =>
    match skipWs cs with
    | [] => []
    | c :: rest =>
      if c = lbraceChar then Except.ok Lexeme.lbrace :: lexLoop fuel rest
      else if c = rbraceChar then Except.ok Lexeme.rbrace :: lexLoop fuel rest
      else if c = '[' then Except.ok Lexeme.lbracket :: lexLoop fuel rest
      else if c = ']' then Except.ok Lexeme.rbracket :: lexLoop fuel rest
      else if c = ':' then Except.ok Lexeme.colon :: lexLoop fuel rest
      else if c = ',' then Except.ok Lexeme.comma :: lexLoop fuel rest
      else if c = '"' then
        match lexString [] rest with
        | Except.error e => [Except.error e]
        | Except.ok (s, rest2) => Except.ok (Lexeme.str s) :: lexLoop fuel rest2
      else if c = '-' ∨ isDigit c then
        match lexNumber (c :: rest) with
        | Except.error e => [Except.error e]
        | Except.ok (q, rest2) => Except.ok (Lexeme.num q) :: lexLoop fuel rest2
      else if isLower c then
        let w := takeWord (c :: rest)
        if String.mk w.1 = "true" then Except.ok Lexeme.tru :: lexLoop fuel w.2
        else if String.mk w.1 = "false" then Except.ok Lexeme.fls :: lexLoop fuel w.2
        else if String.mk w.1 = "null" then Except.ok Lexeme.nul :: lexLoop fuel w.2
        else [Except.error (Error.Unexpected (String.mk w.1))]
      else [Except.error (Error.Unexpected (String.mk [c]))]

/-- Modelled from the spec: the lexeme sequence of an input (spec section
4.1), fail-stop included. -/
def lex (cs : List Char) : List (Except Error Lexeme) :=
  lexLoop (cs.length + 1) cs

/-! ## Parser, modelled from the spec (section 4.3) -/

/-- The kind of an open container. -/
inductive Kind where
  | map | arr
  deriving DecidableEq

/-- A frame's phase (spec section 3): `first` = expect-first-entry,
`key` = expect-key, `colon` = expect-colon, `value` = expect-value,
`comma` = expect-comma-or-close. -/
inductive Phase where
  | first | key | colon | value | comma
  deriving DecidableEq

/-- A parser stack frame (spec section 3): the open container's kind and
its phase. -/
structure Frame where
  kind : Kind
  phase : Phase
  deriving DecidableEq

/-- Full parser state: the frame stack and whether the single top-level
value has been completed (an empty stack with `done = false` is the
implicit top-level expect-value state). -/
structure PState where
  stack : List Frame
  done : Bool
  deriving DecidableEq

/-- The lexeme's text, for `Unexpected` payloads.  The original spelling
of a numeric lexeme is not retained by the model; its value's canonical
decimal/fraction rendering stands in. -/
def lexemeText : Lexeme → String
  | Lexeme.lbrace => "\x7b"
  | Lexeme.rbrace => "\x7d"
  | Lexeme.lbracket => "["
  | Lexeme.rbracket => "]"
  | Lexeme.colon => ":"
  | Lexeme.comma => ","
  | Lexeme.tru => "true"
  | Lexeme.fls => "false"
  | Lexeme.nul => "null"
  | Lexeme.str s => s
  | Lexeme.num q =>
    if q.den = 1 then toString q.num else toString q.num ++ "/" ++ toString q.den

/-- After a complete value has been emitted in the context whose enclosing
frames are `s`: the enclosing frame (if any) moves to
expect-comma-or-close; an emptied stack marks the document complete (spec
section 4.3). -/
def afterValue : List Frame → PState
  | [] => { stack := [], done := true }
  | f :: rest => { stack := { kind := f.kind, phase := Phase.comma } :: rest, done := false }

/-- Modelled from the spec: one lexeme at expect-value (spec section 4.3):
an opener pushes a fresh frame and emits its Start event; a scalar lexeme
emits its event and completes a value; any other lexeme is
`Unexpected`. -/
def valueStep (l : Lexeme) (s : List Frame) : Except Error (Event × PState) :=
  match l with
  | Lexeme.lbrace =>
    Except.ok (Event.StartMap, { stack := ⟨Kind.map, Phase.first⟩ :: s, done := false })
  | Lexeme.lbracket =>
    Except.ok (Event.StartArray, { stack := ⟨Kind.arr, Phase.first⟩ :: s, done := false })
  | Lexeme.tru => Except.ok (Event.Boolean true, afterValue s)
  | Lexeme.fls => Except.ok (Event.Boolean false, afterValue s)
  | Lexeme.nul => Except.ok (Event.Null, afterValue s)
  | Lexeme.num q => Except.ok (Event.Number q, afterValue s)
  | Lexeme.str t => Except.ok (Event.String t, afterValue s)
  | _ => Except.error (Error.Unexpected (lexemeText l))

/-- Modelled from the spec: processing one lexeme against the current
state (spec section 4.3).  Returns the emitted event, if any, and the new
state; `,` and `:` emit nothing.  After the document is complete any
further lexeme is `AdditionalData`; a closer that does not match the open
container's kind at expect-comma-or-close is `Unmatched`; a lone `}` also
closes an empty map at expect-first-entry. -/
def pstep (l : Lexeme) (st : PState) : Except Error (Option Event × PState) :=
  if st.done then Except.error Error.AdditionalData
  else
    match st.stack with
    | [] => (valueStep l []).map (fun p => (some p.1, p.2))
    | f :: rest =>
      match f.kind, f.phase with
      | Kind.map, Phase.first =>
        match l with
        | Lexeme.str t =>
          Except.ok (some (Event.Key t),
            { stack := ⟨Kind.map, Phase.colon⟩ :: rest, done := false })
        | Lexeme.rbrace => Except.ok (some Event.EndMap, afterValue rest)
        | _ => Except.error (Error.Unexpected (lexemeText l))
      | Kind.map, Phase.key =>
        match l with
        | Lexeme.str t =>
          Except.ok (some (Event.Key t),
            { stack := ⟨Kind.map, Phase.colon⟩ :: rest, done := false })
        | _ => Except.error (Error.Unexpected (lexemeText l))
      | Kind.map, Phase.colon =>
        match l with
        | Lexeme.colon =>
          Except.ok (none, { stack := ⟨Kind.map, Phase.value⟩ :: rest, done := false })
        | _ => Except.error (Error.Unexpected (lexemeText l))
      | Kind.map, Phase.value => (valueStep l (f :: rest)).map (fun p => (some p.1, p.2))
      | Kind.map, Phase.comma =>
        match l with
        | Lexeme.comma =>
          Except.ok (none, { stack := ⟨Kind.map, Phase.key⟩ :: rest, done := false })
        | Lexeme.rbrace => Except.ok (some Event.EndMap, afterValue rest)
        | Lexeme.rbracket => Except.error (Error.Unmatched ']')
        | _ => Except.error (Error.Unexpected (lexemeText l))
      | Kind.arr, Phase.first =>
        match l with
        | Lexeme.rbracket => Except.ok (some Event.EndArray, afterValue rest)
        | _ => (valueStep l (f :: rest)).map (fun p => (some p.1, p.2))
      | Kind.arr, Phase.value => (valueStep l (f :: rest)).map (fun p => (some p.1, p.2))
      | Kind.arr, Phase.comma =>
        match l with
        | Lexeme.comma =>
          Except.ok (none, { stack := ⟨Kind.arr, Phase.value⟩ :: rest, done := false })
        | Lexeme.rbracket => Except.ok (some Event.EndArray, afterValue rest)
        | Lexeme.rbrace => Except.error (Error.Unmatched rbraceChar)
        | _ => Except.error (Error.Unexpected (lexemeText l))
      | Kind.arr, Phase.key => Except.error (Error.Unexpected (lexemeText l))
      | Kind.arr, Phase.colon => Except.error (Error.Unexpected (lexemeText l))

/-- Modelled from the spec: the parser's event sequence over a lexeme
sequence (spec sections 4.2, 4.3).  A lexer error is propagated as the
parser's own error item; any error ends the sequence (the fail-stop
wrapper of section 4.2); end of the lexemes with the document not yet
complete is `MoreLexemes`. -/
def parseLoop : PState → List (Except Error Lexeme) → List (Except Error Event)
  | st, [] => if st.done then [] else [Except.error Error.MoreLexemes]
  | _, Except.error e :: _ => [Except.error e]
  | st, Except.ok l :: rest =>
    match pstep l st with
    | Except.error e => [Except.error e]
    | Except.ok (some ev, st2) => Except.ok ev :: parseLoop st2 rest
    | Except.ok (none, st2) => parseLoop st2 rest

/-- Modelled from the spec: the full pipeline on a character input — the
construction of spec section 6, "given a byte source, produce a sequence
of `Result<Event, Error>` (unfiltered)". -/
def parse (cs : List Char) : List (Except Error Event) :=
  parseLoop { stack := [], done := false } (lex cs)

/-! ## Remaining definitions used by the statements -/

deriving instance DecidableEq for Except

/-- The standard iterator over a list: `next` pops the head and is
exhausted on the empty list.  Used to instantiate the generic wrapper
theorems on concrete inputs. -/
def listIter {α : Type} : Iter (List α) α where
  step := fun l =>
    match l with
    | [] => (none, [])
    | x :: xs => (some x, xs)

/-- Is this produced item an error item? -/
def isErrItem {ε α : Type} : Except ε α → Bool
  | Except.error _ => true
  | Except.ok _ => false

/-- The unterminated-string input of spec section 8 and of the
`unterminated_string` test in `src/test.rs`: `\x7b"key": "value`. -/
def c5Input : List Char := "\x7b\"key\": \"value".toList

/-! ## Helper lemmas -/

/-- Once `errored` is set, `next` produces nothing and leaves the whole
state (the wrapped iterator's state included) untouched. -/
theorem RIState.next_of_errored {σ ε τ : Type} (it : Iter σ (Except ε τ))
    (st : RIState σ) (h : st.errored = true) :
    RIState.next it st = (none, st) := by
  simp [RIState.next, h]

/-- Producing an `Err` item sets the `errored` flag. -/
theorem RIState.errored_after_error {σ ε τ : Type} (it : Iter σ (Except ε τ))
    (st : RIState σ) (e : ε)
    (h : (RIState.next it st).1 = some (Except.error e)) :
    (RIState.next it st).2.errored = true := by
  by_cases hst : st.errored = true
  · rw [RIState.next_of_errored it st hst] at h
    simp at h
  · simp only [RIState.next, hst, if_false] at h ⊢
    simp only [Bool.not_eq_true] at hst
    rcases hval : (it.step st.iterator).1 with _ | v
    · rw [hval] at h; simp at h
    · rw [hval] at h
      rcases v with e' | t
      · simp [hval]
      · simp at h

/-- In an errored state, any number of further calls all produce `none`
and the state never changes. -/
theorem RIState.nextN_of_errored {σ ε τ : Type} (it : Iter σ (Except ε τ))
    (st : RIState σ) (h : st.errored = true) (k : Nat) :
    RIState.nextN it k st = (List.replicate k none, st) := by
  induction k with
  | zero => simp [RIState.nextN]
  | succ n ih =>
    simp [RIState.nextN, RIState.next_of_errored it st h, ih,
      List.replicate_succ]

/-- Sibling spans concatenated one by one agree with mapping each value to
its span and joining. -/
theorem Json.eventsList_eq_flatten (l : List Json) :
    Json.eventsList l = (l.map Json.events).flatten := by
  induction l with
  | nil => simp [Json.eventsList]
  | cons j rest ih => simp [Json.eventsList, ih]

/-! ## Model validation against the remaining fixtures of spec section 8
and `src/test.rs` -/

/-- The modelled lexer-to-parser pipeline reproduces the unfiltered event
sequence of the scenario document from its concrete JSON text. -/
theorem parse_scenarioDoc_text :
    parse "\x7b\"docs\":[\x7b\"meta\":[[1],\x7b\x7d]\x7d,\x7b\"meta\":\x7b\"k\":\"v\"\x7d\x7d,\x7b\"meta\":null\x7d]\x7d".toList
      = scenarioDoc.events.map Except.ok := by decide

/-- Spec section 8: input `\x7b"a":1]` fails with `Unmatched(])`. -/
theorem parse_unmatched_fixture :
    parse "\x7b\"a\":1]".toList =
      [Except.ok Event.StartMap, Except.ok (Event.Key "a"), Except.ok (Event.Number 1),
       Except.error (Error.Unmatched ']')] := by decide

/-- Spec section 8: after the first complete value, the next item on
`\x7b"a":1\x7d\x7b"b":2\x7d` is `AdditionalData`. -/
theorem parse_additional_data_fixture :
    parse "\x7b\"a\":1\x7d\x7b\"b\":2\x7d".toList =
      [Except.ok Event.StartMap, Except.ok (Event.Key "a"), Except.ok (Event.Number 1),
       Except.ok Event.EndMap, Except.error Error.AdditionalData] := by decide

/-- Spec section 8: input `\x7b"a": \x7d` fails with `Unexpected`
referencing the stray closing brace. -/
theorem parse_unexpected_fixture :
    parse "\x7b\"a\": \x7d".toList =
      [Except.ok Event.StartMap, Except.ok (Event.Key "a"),
       Except.error (Error.Unexpected "\x7d")] := by decide

/-! ## The claims -/

/-- C1: Fail-stop — for every underlying iterator of fallible items, once
`ResultIterator` has yielded an `Err` item, every subsequent call to
`next` returns `None` (no further items, `Ok` or `Err`, are ever
produced), permanently: the next `k` produced items are `none` for every
`k`. -/
theorem resultIterator_fail_stop_permanent {σ ε τ : Type}
    (it : Iter σ (Except ε τ)) (st : RIState σ) (e : ε)
    (h : (RIState.next it st).1 = some (Except.error e)) (k : Nat) :
    (RIState.nextN it k (RIState.next it st).2).1 = List.replicate k none := by
  have herr := RIState.errored_after_error it st e h
  rw [RIState.nextN_of_errored it _ herr k]

/-- Witness for C1: on the concrete underlying iterator over
`[Err 7, Ok 1, Ok 2]`, the first call yields the error and the next three
calls all yield `none` although the source still holds `Ok` values. -/
theorem resultIterator_fail_stop_permanent_witness :
    (RIState.next listIter
        (RIState.new [Except.error 7, Except.ok 1, Except.ok 2])).1 =
      some (Except.error (7 : Nat)) ∧
    (RIState.nextN listIter 3
        (RIState.next listIter
          (RIState.new [Except.error 7, Except.ok (1 : Nat), Except.ok 2])).2).1 =
      List.replicate 3 none :=
  ⟨by decide,
    resultIterator_fail_stop_permanent listIter
      (RIState.new [Except.error 7, Except.ok 1, Except.ok 2]) 7 (by decide) 3⟩

/-- C2: for every well-formed JSON document, the event sequence produced
by the path filter under the empty-string pattern is identical, item for
item, to the unfiltered event sequence of the same document. -/
theorem prefix_empty_pattern_is_unfiltered (j : Json) :
    prefixOut (compile "") j = Json.events j := by
  have hc : compile "" = [] := rfl
  rw [hc]
  show Json.eventsList (Json.matchesAt [] j) = Json.events j
  simp [Json.matchesAt, Json.eventsList]

/-- C3: for every pattern string and every document, the concatenation,
in order, of the event spans of all results produced by `items` equals
exactly the event sequence produced by the `prefix` filter on the same
document. -/
theorem items_concat_eq_prefix (s : String) (j : Json) :
    (itemsOut (compile s) j).flatten = prefixOut (compile s) j := by
  show ((Json.matchesAt (compile s) j).map Json.events).flatten =
    Json.eventsList (Json.matchesAt (compile s) j)
  rw [Json.eventsList_eq_flatten]

/-- Counterexample for C4: on the scenario document, the filter output
under `docs.item.meta.item` is exactly `StartArray, Number 1, EndArray,
StartMap, EndMap`, whose length is 5 — not "four events total" as the
claim states. -/
theorem scenario_output_not_four_events :
    prefixOut (compile "docs.item.meta.item") scenarioDoc =
      [Event.StartArray, Event.Number 1, Event.EndArray,
       Event.StartMap, Event.EndMap] ∧
    (prefixOut (compile "docs.item.meta.item") scenarioDoc).length ≠ 4 := by
  exact ⟨by decide, by decide⟩

/-- C4 (amended): on the scenario document, `docs.item.meta.item` yields
exactly the concatenated event spans of the elements of the two
array-typed `meta` values — `StartArray, Number 1, EndArray, StartMap,
EndMap`, five events total — the Map-typed and null-typed `meta` siblings
contributing no events (the matched sub-trees are exactly `[1]` and the
empty map, in document order). -/
theorem scenario_output_five_events :
    prefixOut (compile "docs.item.meta.item") scenarioDoc =
      Json.events (Json.array [Json.number 1]) ++ Json.events (Json.object []) ∧
    prefixOut (compile "docs.item.meta.item") scenarioDoc =
      [Event.StartArray, Event.Number 1, Event.EndArray,
       Event.StartMap, Event.EndMap] ∧
    (prefixOut (compile "docs.item.meta.item") scenarioDoc).length = 5 := by
  exact ⟨by decide, by decide, by decide⟩

/-- C5: on the input `\x7b"key": "value` (a string literal with no
closing quote before end-of-stream), the parser's event sequence is
`StartMap`, `Key "key"`, then an `Unterminated` error; that error is the
first and only error item and no items of any kind follow it. -/
theorem unterminated_string_fail_stop :
    parse c5Input =
      [Except.ok Event.StartMap, Except.ok (Event.Key "key"),
       Except.error Error.Unterminated] ∧
    (parse c5Input).filter isErrItem = [Except.error Error.Unterminated] ∧
    (parse c5Input).getLast? = some (Except.error Error.Unterminated) := by
  exact ⟨by decide, by decide, by decide⟩

/-- C6: every value of the error type is one of exactly the eight kinds
of the flat taxonomy — `Unterminated`, `IO` (carrying the underlying I/O
error), `Unexpected` (carrying the lexeme text), `Utf8` (carrying the
underlying UTF-8 error), `Escape` (carrying the escape text),
`MoreLexemes`, `Unmatched` (carrying the closing character) and
`AdditionalData` — with no other variants. -/
theorem error_exactly_eight_variants (e : Error) :
    e = Error.Unterminated ∨ (∃ x, e = Error.IOError x) ∨
    (∃ s, e = Error.Unexpected s) ∨ (∃ u, e = Error.Utf8 u) ∨
    (∃ s, e = Error.Escape s) ∨ e = Error.MoreLexemes ∨
    (∃ c, e = Error.Unmatched c) ∨ e = Error.AdditionalData := by
  cases e with
  | Unterminated => exact Or.inl rfl
  | IOError x => exact Or.inr (Or.inl ⟨x, rfl⟩)
  | Unexpected s => exact Or.inr (Or.inr (Or.inl ⟨s, rfl⟩))
  | Utf8 u => exact Or.inr (Or.inr (Or.inr (Or.inl ⟨u, rfl⟩)))
  | Escape s => exact Or.inr (Or.inr (Or.inr (Or.inr (Or.inl ⟨s, rfl⟩))))
  | MoreLexemes => exact Or.inr (Or.inr (Or.inr (Or.inr (Or.inr (Or.inl rfl)))))
  | Unmatched c =>
    exact Or.inr (Or.inr (Or.inr (Or.inr (Or.inr (Or.inr (Or.inl ⟨c, rfl⟩))))))
  | AdditionalData =>
    exact Or.inr (Or.inr (Or.inr (Or.inr (Or.inr (Or.inr (Or.inr rfl))))))

/-- C7: for every underlying I/O error the conversion into the public
error type yields exactly `Error.IOError` of it, and for every UTF-8 error it
yields exactly `Error.Utf8` of it; the underlying error is preserved
unchanged inside the variant. -/
theorem from_conversions_preserve_underlying :
    (∀ e : IOErr, Error.fromIOError e = Error.IOError e) ∧
    (∀ u : Utf8Err, Error.fromUtf8 u = Error.Utf8 u) :=
  ⟨fun _ => rfl, fun _ => rfl⟩

/-- C9: the `Display` implementation does NOT terminate on the
`Unterminated` and `IO` variants — it formats `self` again and recurses
into itself, so no recursion depth (fuel) ever yields a message — while a
non-recursive variant such as `MoreLexemes` does produce its finite
message.  This contradicts the claim, whose intent (a finite message for
every variant) the rest of the implementation and the `description`
method clearly support: a code bug. -/
theorem display_diverges_on_unterminated_and_io :
    (∀ n : Nat, Error.fmtDisplay Error.Unterminated n = none) ∧
    (∀ (x : IOErr) (n : Nat), Error.fmtDisplay (Error.IOError x) n = none) ∧
    Error.fmtDisplay Error.MoreLexemes 1 = some "More lexemes expected" := by
  refine ⟨?_, ?_, rfl⟩
  · intro n
    induction n with
    | zero => rfl
    | succ k ih => simpa [Error.fmtDisplay] using ih
  · intro x n
    induction n with
    | zero => rfl
    | succ k ih => simp [Error.fmtDisplay, ih]

/-- C10: transparency before failure — a freshly constructed
`ResultIterator` starts in the non-errored state, and while no error item
has been yielded (`errored` still unset) each call to `next` returns
exactly the underlying iterator's next item unchanged (the first error
item included) and advances the underlying iterator by exactly that one
step. -/
theorem resultIterator_transparent_before_failure {σ ε τ : Type}
    (it : Iter σ (Except ε τ)) (st : RIState σ) (s0 : σ)
    (h : st.errored = false) :
    (RIState.new s0).errored = false ∧
    (RIState.next it st).1 = (it.step st.iterator).1 ∧
    (RIState.next it st).2.iterator = (it.step st.iterator).2 := by
  refine ⟨rfl, ?_, ?_⟩ <;> simp [RIState.next, h]

/-- Witness for C10: a fresh wrapper over `[Ok 4, Err 2]` is non-errored,
and one call forwards `Ok 4` unchanged while consuming exactly it from
the source. -/
theorem resultIterator_transparent_before_failure_witness :
    (RIState.new ([] : List (Except Nat Nat))).errored = false ∧
    (RIState.next listIter (RIState.new [Except.ok 4, Except.error 2])).1 =
      (listIter.step ((RIState.new [Except.ok (4 : Nat), Except.error 2]).iterator)).1 ∧
    (RIState.next listIter (RIState.new [Except.ok 4, Except.error 2])).2.iterator =
      (listIter.step ((RIState.new [Except.ok (4 : Nat), Except.error 2]).iterator)).2 :=
  resultIterator_transparent_before_failure listIter
    (RIState.new [Except.ok 4, Except.error 2]) [] (by decide)

/-- C8: after the wrapper has yielded an error item, no subsequent call
invokes the underlying iterator: after any number of further calls the
underlying iterator's state is exactly what it was when the error was
produced, even though it could still produce values. -/
theorem resultIterator_post_error_frame {σ ε τ : Type}
    (it : Iter σ (Except ε τ)) (st : RIState σ) (e : ε)
    (h : (RIState.next it st).1 = some (Except.error e)) (k : Nat) :
    (RIState.nextN it k (RIState.next it st).2).2.iterator =
      (RIState.next it st).2.iterator := by
  have herr := RIState.errored_after_error it st e h
  rw [RIState.nextN_of_errored it _ herr k]

/-- Witness for C8: over `[Err 9, Ok 5]` the error is produced first, and
after two further calls the underlying state still holds `[Ok 5]` — the
wrapped iterator was never advanced past the error. -/
theorem resultIterator_post_error_frame_witness :
    (RIState.next listIter (RIState.new [Except.error 9, Except.ok 5])).1 =
      some (Except.error (9 : Nat)) ∧
    (RIState.nextN listIter 2
        (RIState.next listIter (RIState.new [Except.error 9, Except.ok (5 : Nat)])).2).2.iterator =
      (RIState.next listIter (RIState.new [Except.error 9, Except.ok 5])).2.iterator :=
  ⟨by decide,
    resultIterator_post_error_frame listIter
      (RIState.new [Except.error 9, Except.ok 5]) 9 (by decide) 2⟩
